import Mathlib

/-!
Verification development for the income-statement flow-graph builder of
`src/components/SankeyChart.tsx` (Financial-Sankey-StoryTeller).

The core of the component is the `useEffect` body: it normalizes a raw,
loosely-typed income statement into numbers, fills missing financial
quantities by a fixed sequence of inference rules, and emits a 6-node,
5-link flow graph.  We embed that computation shallowly:

* JavaScript numbers are modelled by `JSNum`: an exact rational (`ℚ`)
  or one of the special values `NaN`, `Infinity`, `-Infinity`.  Rounding
  of finite arithmetic is not modelled — it is exact — but the special
  values and their propagation through arithmetic, comparison,
  truthiness, `Math.abs` and `Math.max` follow the JavaScript semantics,
  since the source manipulates and tests them (`isNaN`, `|| 0`); and
  `parseFloat` overflow IS modelled: a decimal magnitude at or above
  `2^1024 − 2^970` (the IEEE round-to-nearest boundary of the double
  range) parses to `±Infinity`, which `isNaN` does not reject.
* A raw statement (a JS object) is a list of key/value entries in
  insertion order; assignment to `cleanedData[key]` is modelled by
  function update, matching the last-write-wins object semantics.
* The React state machine is modelled by `renderComponent`: the effect
  returns early on a null statement (so `data` stays `null` and the
  component shows its non-chart fallback panel), otherwise it always
  reaches `setData` and the chart is rendered.
-/

namespace SankeyChart

/-- A JavaScript number: an exact finite rational, `Infinity`, `-Infinity`
or `NaN`.  (Finite-precision rounding is not modelled.) -/
inductive JSNum where
  | fin (q : ℚ)
  | posInf
  | negInf
  | nan
deriving DecidableEq

namespace JSNum

/-- JavaScript `x > 0`.  `NaN > 0` is false. -/
def gtZero : JSNum → Bool
  | .fin q => if 0 < q then true else false
  | .posInf => true
  | _ => false

/-- JavaScript `x === 0`.  Only the finite value 0 is `=== 0`. -/
def eqZero : JSNum → Bool
  | .fin q => if q = 0 then true else false
  | _ => false

/-- JavaScript truthiness of a number: `0` and `NaN` are falsy. -/
def truthy : JSNum → Bool
  | .fin q => if q = 0 then false else true
  | .nan => false
  | _ => true

/-- The value is neither `NaN` nor infinite. -/
def isFinite : JSNum → Bool
  | .fin _ => true
  | _ => false

end JSNum

/-- JavaScript subtraction, with the IEEE special-value rules:
`∞ - ∞ = NaN`, `NaN` propagates. -/
def jsSub : JSNum → JSNum → JSNum
  | .nan, _ => .nan
  | _, .nan => .nan
  | .fin a, .fin b => .fin (a - b)
  | .fin _, .posInf => .negInf
  | .fin _, .negInf => .posInf
  | .posInf, .fin _ => .posInf
  | .negInf, .fin _ => .negInf
  | .posInf, .negInf => .posInf
  | .negInf, .posInf => .negInf
  | .posInf, .posInf => .nan
  | .negInf, .negInf => .nan

/-- JavaScript multiplication, with the IEEE special-value rules:
`±∞ × 0 = NaN`, signs multiply, `NaN` propagates. -/
def jsMul : JSNum → JSNum → JSNum
  | .nan, _ => .nan
  | _, .nan => .nan
  | .fin a, .fin b => .fin (a * b)
  | .posInf, .fin b => if 0 < b then .posInf else if b < 0 then .negInf else .nan
  | .negInf, .fin b => if 0 < b then .negInf else if b < 0 then .posInf else .nan
  | .fin a, .posInf => if 0 < a then .posInf else if a < 0 then .negInf else .nan
  | .fin a, .negInf => if 0 < a then .negInf else if a < 0 then .posInf else .nan
  | .posInf, .posInf => .posInf
  | .posInf, .negInf => .negInf
  | .negInf, .posInf => .negInf
  | .negInf, .negInf => .posInf

/-- JavaScript `Math.abs`. -/
def jsAbs : JSNum → JSNum
  | .fin q => .fin (if q < 0 then -q else q)
  | .nan => .nan
  | _ => .posInf

/-- JavaScript `Math.max` on two arguments: `NaN` if either argument is
`NaN`, otherwise the larger. -/
def jsMax : JSNum → JSNum → JSNum
  | .nan, _ => .nan
  | _, .nan => .nan
  | .posInf, _ => .posInf
  | _, .posInf => .posInf
  | .fin a, .fin b => if a ≤ b then .fin b else .fin a
  | .fin a, .negInf => .fin a
  | .negInf, .fin b => .fin b
  | .negInf, .negInf => .negInf

/-- JavaScript `a >= b`; false whenever either side is `NaN`. -/
def jsGe : JSNum → JSNum → Bool
  | .nan, _ => false
  | _, .nan => false
  | .posInf, _ => true
  | _, .posInf => false
  | .fin a, .fin b => if b ≤ a then true else false
  | .fin _, .negInf => true
  | .negInf, .fin _ => false
  | .negInf, .negInf => true

/-- A raw field value of the income-statement object: a number, a string,
or some other JS value (object, boolean, null, ...). -/
inductive RawValue where
  | num (x : JSNum)
  | str (s : String)
  | other
deriving DecidableEq

/-- The raw income statement: the entries of the JS object, in insertion
order (keys of a JS object are unique, but no uniqueness is needed by the
development; assignments below are last-write-wins as in JS). -/
abbrev RawStatement := List (String × RawValue)

/-- The `cleanedData` object: a partial map from field names to cleaned numbers. -/
abbrev CleanedFields := String → Option JSNum

/-- Strip every character except digits, `.` and `-`:
`value.toString().replace(/[^\d.-]/g, '')`. -/
def stripNonNumeric (s : String) : List Char :=
  s.data.filter (fun c => c.isDigit || c = '.' || c = '-')

/-- Numeric value of a digit character. -/
def digitVal (c : Char) : ℕ := c.toNat - '0'.toNat

/-- Value of a digit list read in base 10. -/
def digitsToNat (l : List Char) : ℕ :=
  l.foldl (fun acc c => 10 * acc + digitVal c) 0

/-- Optional leading sign of a numeric literal. -/
def parseSign : List Char → Bool × List Char
  | '-' :: rest => (true, rest)
  | '+' :: rest => (false, rest)
  | l => (false, l)

/-- JavaScript `parseFloat` on a character list, discrete phase: optional
sign, integer digits, optional `.` plus fraction digits; parsing stops at
the first character that does not fit, and the result is `NaN` (here
`none`) when no digit was consumed.  The source only applies it after
`stripNonNumeric`, so exponents and the `Infinity` literal cannot occur.
The result is (sign, integer digits, fraction digits, fraction length);
`parsedToRat` turns it into the parsed number. -/
def jsParseFloat (l : List Char) : Option (Bool × ℕ × ℕ × ℕ) :=
  let sr := parseSign l
  let intPart := sr.2.takeWhile Char.isDigit
  let rest := sr.2.dropWhile Char.isDigit
  let fracPart :=
    match rest with
    | '.' :: r => r.takeWhile Char.isDigit
    | _ => []
  if intPart = [] ∧ fracPart = [] then none
  else some (sr.1, digitsToNat intPart, digitsToNat fracPart, fracPart.length)

/-- Exact numeric value of a `jsParseFloat` result. -/
def parsedToRat (p : Bool × ℕ × ℕ × ℕ) : ℚ :=
  let mag : ℚ := (p.2.1 : ℚ) + (p.2.2.1 : ℚ) / (10 : ℚ) ^ p.2.2.2
  if p.1 then -mag else mag

/-- The smallest decimal magnitude that IEEE round-to-nearest sends to
`Infinity`: the midpoint `2^1024 − 2^970` between the largest double
`2^1024 − 2^971` and `2^1024` (the tie rounds up, to the even `2^1024`).
Written as a numeral so kernel evaluation never unfolds a huge power;
`overflowThreshold_eq` below validates it against `2^1024 − 2^970`. -/
def overflowThreshold : ℕ :=
  179769313486231580793728971405303415079934132710037826936173778980444968292764750946649017977587207096330286416692887910946555547851940402630657488671505820681908902000708383676273854845817711531764475730270069855571366959622842914819860834936475292719074168444365510704342711559699508093042880177904174497792

/-- Whether the magnitude `i + f / 10^L` of a parse result reaches the
overflow threshold, stated over the digits so it is computable:
`i·10^L + f ≥ overflowThreshold·10^L`. -/
def parsedOverflows (p : Bool × ℕ × ℕ × ℕ) : Bool :=
  p.2.1 * 10 ^ p.2.2.2 + p.2.2.1 ≥ overflowThreshold * 10 ^ p.2.2.2

/-- The JS number a `parseFloat` result denotes: `±Infinity` when the
decimal magnitude overflows the double range, the exact rational below
the threshold.  (`parseFloat("1" + "0"×309)` is `Infinity` in JS.) -/
def parsedToJSNum (p : Bool × ℕ × ℕ × ℕ) : JSNum :=
  if parsedOverflows p then (if p.1 then .negInf else .posInf)
  else .fin (parsedToRat p)

/-- Cleaning of one string field value: the literal `"Unknown"` is
rejected; otherwise strip non-numeric characters, `parseFloat`, and
accept when the parse is not `NaN` — note an overflowing parse gives
`Infinity`, and `isNaN(Infinity)` is false, so it is accepted. -/
def cleanString (s : String) : Option JSNum :=
  if s = "Unknown" then none
  else
    match jsParseFloat (stripNonNumeric s) with
    | some p => some (parsedToJSNum p)
    | none => none

/-- One iteration of the `Object.entries(incomeStatement).forEach` loop:
the `error` key is skipped; numbers are stored as-is; strings are cleaned
and stored when the parse succeeds; other types are rejected. -/
def cleanStep (m : CleanedFields) (kv : String × RawValue) : CleanedFields :=
  fun k =>
    if kv.1 = "error" then m k
    else
      match kv.2 with
      | RawValue.num x => if k = kv.1 then some x else m k
      | RawValue.str s =>
          match cleanString s with
          | some v => if k = kv.1 then some v else m k
          | none => m k
      | RawValue.other => m k

/-- The normalizer: fold the cleaning step over all entries, starting from
the empty `cleanedData` object. -/
def buildCleaned (raw : RawStatement) : CleanedFields :=
  raw.foldl cleanStep (fun _ => none)

/-- JavaScript `v || 0` applied to an optional cleaned field: absent
fields (`undefined`), `0` and `NaN` all default to `0`; every other
number (including `±Infinity`) passes through. -/
def orZero : Option JSNum → JSNum
  | none => .fin 0
  | some v => if v.truthy then v else .fin 0

/-- The fixed six-field record built from `cleanedData`. -/
structure FinancialData where
  Revenue : JSNum
  Cost_of_Revenue : JSNum
  Gross_Profit : JSNum
  Operating_Expenses : JSNum
  Operating_Income : JSNum
  Net_Income : JSNum
deriving DecidableEq

/-- Defaulting: each of the six fields is `cleanedData.F || 0`. -/
def defaultFD (cd : CleanedFields) : FinancialData where
  Revenue := orZero (cd "Revenue")
  Cost_of_Revenue := orZero (cd "Cost_of_Revenue")
  Gross_Profit := orZero (cd "Gross_Profit")
  Operating_Expenses := orZero (cd "Operating_Expenses")
  Operating_Income := orZero (cd "Operating_Income")
  Net_Income := orZero (cd "Net_Income")

/-- Rule 1 (`if (financialData.Revenue > 0) ...`): derive Gross_Profit or
Cost_of_Revenue from Revenue, falling back to the 65% COGS estimate. -/
def rule1 (fd : FinancialData) : FinancialData :=
  if fd.Revenue.gtZero then
    if fd.Gross_Profit.eqZero then
      if fd.Cost_of_Revenue.gtZero then
        { fd with Gross_Profit := jsSub fd.Revenue fd.Cost_of_Revenue }
      else
        let cor := jsMul fd.Revenue (.fin 0.65)
        { fd with Cost_of_Revenue := cor, Gross_Profit := jsSub fd.Revenue cor }
    else
      if fd.Cost_of_Revenue.eqZero then
        { fd with Cost_of_Revenue := jsSub fd.Revenue fd.Gross_Profit }
      else fd
  else fd

/-- Rule 2 (`if (financialData.Gross_Profit > 0) ...`): derive
Operating_Income or Operating_Expenses, falling back to the 70% OpEx
estimate. -/
def rule2 (fd : FinancialData) : FinancialData :=
  if fd.Gross_Profit.gtZero then
    if fd.Operating_Income.eqZero then
      if fd.Operating_Expenses.gtZero then
        { fd with Operating_Income := jsSub fd.Gross_Profit fd.Operating_Expenses }
      else
        let opex := jsMul fd.Gross_Profit (.fin 0.7)
        { fd with Operating_Expenses := opex,
                  Operating_Income := jsSub fd.Gross_Profit opex }
    else
      if fd.Operating_Expenses.eqZero then
        { fd with Operating_Expenses := jsSub fd.Gross_Profit fd.Operating_Income }
      else fd
  else fd

/-- Rule 3: estimate Net_Income as 75% of a present Operating_Income. -/
def rule3 (fd : FinancialData) : FinancialData :=
  if !fd.Operating_Income.eqZero && fd.Net_Income.eqZero then
    { fd with Net_Income := jsMul fd.Operating_Income (.fin 0.75) }
  else fd

/-- Rule 4: back-infer Revenue (and Cost_of_Revenue) from Gross_Profit
when Revenue is still 0. -/
def rule4 (fd : FinancialData) : FinancialData :=
  if fd.Revenue.eqZero && fd.Gross_Profit.gtZero then
    let rev := jsMul fd.Gross_Profit (.fin 1.5)
    { fd with Revenue := rev, Cost_of_Revenue := jsSub rev fd.Gross_Profit }
  else fd

/-- Rule 5: back-infer Operating_Income from a present Net_Income. -/
def rule5 (fd : FinancialData) : FinancialData :=
  if !fd.Net_Income.eqZero && fd.Operating_Income.eqZero then
    { fd with Operating_Income := jsMul fd.Net_Income (.fin 1.25) }
  else fd

/-- The whole inference chain, in source order. -/
def runInference (fd : FinancialData) : FinancialData :=
  rule5 (rule4 (rule3 (rule2 (rule1 fd))))

/-- A node of the emitted graph. -/
structure SankeyNode where
  name : String
  value : JSNum
deriving DecidableEq

/-- A link of the emitted graph. -/
structure SankeyLink where
  source : ℕ
  target : ℕ
  value : JSNum
  absoluteValue : JSNum
deriving DecidableEq

/-- The emitted graph. -/
structure SankeyData where
  nodes : List SankeyNode
  links : List SankeyLink
deriving DecidableEq

/-- The floor `const minFlowValue = 1`. -/
def minFlowValue : JSNum := .fin 1

/-- The positive layout magnitude `Math.max(minFlowValue, Math.abs(x))`
of a field. -/
def clampFlow (x : JSNum) : JSNum := jsMax minFlowValue (jsAbs x)

/-- Graph construction: the six fixed nodes carrying the signed values,
and the five fixed links carrying clamped layout values plus the signed
`absoluteValue`. -/
def buildGraph (fd : FinancialData) : SankeyData where
  nodes :=
    [ { name := "Revenue", value := fd.Revenue },
      { name := "Cost", value := fd.Cost_of_Revenue },
      { name := "Gross Profit", value := fd.Gross_Profit },
      { name := "Op Expenses", value := fd.Operating_Expenses },
      { name := "Op Income", value := fd.Operating_Income },
      { name := "Net Income", value := fd.Net_Income } ]
  links :=
    [ { source := 0, target := 1, value := clampFlow fd.Cost_of_Revenue,
        absoluteValue := fd.Cost_of_Revenue },
      { source := 0, target := 2, value := clampFlow fd.Gross_Profit,
        absoluteValue := fd.Gross_Profit },
      { source := 2, target := 3, value := clampFlow fd.Operating_Expenses,
        absoluteValue := fd.Operating_Expenses },
      { source := 2, target := 4, value := clampFlow fd.Operating_Income,
        absoluteValue := fd.Operating_Income },
      { source := 4, target := 5, value := clampFlow fd.Net_Income,
        absoluteValue := fd.Net_Income } ]

/-- The whole per-input pipeline of the effect body. -/
def buildSankey (raw : RawStatement) : SankeyData :=
  buildGraph (runInference (defaultFD (buildCleaned raw)))

/-- What the component shows after the effect has run once. -/
inductive RenderOutcome where
  | failureState
  | chart (d : SankeyData)
deriving DecidableEq

/-- The component over an optional (possibly null/undefined) statement:
on a null statement the effect returns early, `data` stays `null` and the
non-chart fallback panel is rendered; otherwise the effect always reaches
`setData` and the chart for `buildSankey` is rendered.  (No statement in
the effect body can throw, so the `catch` branch is unreachable.) -/
def renderComponent : Option RawStatement → RenderOutcome
  | none => .failureState
  | some raw => .chart (buildSankey raw)

/-- The six financial field names. -/
def sixFieldNames : List String :=
  ["Revenue", "Cost_of_Revenue", "Gross_Profit", "Operating_Expenses",
   "Operating_Income", "Net_Income"]

/-- A raw value that cannot put a non-finite number into the cleaned
fields: a finite number, a string whose parse (if accepted) is finite
(i.e. does not overflow to `Infinity`), or a non-numeric value. -/
def rawValueFinite : RawValue → Bool
  | .num x => x.isFinite
  | .str s =>
      match cleanString s with
      | some v => v.isFinite
      | none => true
  | .other => true

/-- A raw statement whose numeric values are all finite and whose string
fields never parse to an overflowing (infinite) magnitude. -/
def allFinite (raw : RawStatement) : Bool :=
  raw.all (fun kv => rawValueFinite kv.2)

/-- All six fields of the record are finite. -/
def FDallFinite (fd : FinancialData) : Prop :=
  fd.Revenue.isFinite = true ∧ fd.Cost_of_Revenue.isFinite = true ∧
  fd.Gross_Profit.isFinite = true ∧ fd.Operating_Expenses.isFinite = true ∧
  fd.Operating_Income.isFinite = true ∧ fd.Net_Income.isFinite = true

/-- The end-to-end example input `{Revenue: "1,000", Cost_of_Revenue: "600"}`. -/
def rawC1 : RawStatement :=
  [("Revenue", RawValue.str "1,000"), ("Cost_of_Revenue", RawValue.str "600")]

/-- The example input `{Net_Income: -50}`. -/
def rawC8 : RawStatement := [("Net_Income", RawValue.num (.fin (-50)))]

/-- An input whose Revenue is the JS number `Infinity`. -/
def rawInfRevenue : RawStatement := [("Revenue", RawValue.num .posInf)]

/-- An input whose Revenue is the JS number `NaN`. -/
def rawNaNRevenue : RawStatement := [("Revenue", RawValue.num .nan)]

/-- The numeric string `"1"` followed by 309 zeros: its value `10^309`
is far beyond the double range, so `parseFloat` returns `Infinity`. -/
def overflowString : String := String.mk ('1' :: List.replicate 309 '0')

/-- An input whose Revenue is a numeric string that overflows to
`Infinity` when parsed. -/
def rawOverflowRevenue : RawStatement := [("Revenue", RawValue.str overflowString)]

/-- Rule 1 writes `Cost_of_Revenue` (either by the 65% fallback branch or
by the `Revenue − Gross_Profit` branch). -/
def rule1SetsCoR (fd : FinancialData) : Bool :=
  fd.Revenue.gtZero &&
    ((fd.Gross_Profit.eqZero && !fd.Cost_of_Revenue.gtZero) ||
     (!fd.Gross_Profit.eqZero && fd.Cost_of_Revenue.eqZero))

/-- Rule 4's guard. -/
def rule4Fires (fd : FinancialData) : Bool :=
  fd.Revenue.eqZero && fd.Gross_Profit.gtZero

/-- On the given raw statement, rule 1 writes `Cost_of_Revenue` and rule 4
(whose guard is evaluated on the state it actually sees, after rules 1–3)
fires and overwrites it. -/
def rule1ThenRule4Overwrite (raw : RawStatement) : Bool :=
  let fd := defaultFD (buildCleaned raw)
  rule1SetsCoR fd && rule4Fires (rule3 (rule2 (rule1 fd)))

/-- No input statement whatsoever makes rule 4 overwrite a
`Cost_of_Revenue` that rule 1 set. -/
def noRule1Rule4Overwrite : Prop :=
  ∀ raw : RawStatement, rule1ThenRule4Overwrite raw = false

/-- Pointwise relation between cleaned maps: they agree everywhere,
except that the first may hold an explicit `0` where the second has no
entry at all. -/
def zeroAbsentAgree (m1 m2 : CleanedFields) : Prop :=
  ∀ k, m1 k = m2 k ∨ (m1 k = some (.fin 0) ∧ m2 k = none)

end SankeyChart

namespace SankeyChart

/-! ### Concrete end-to-end evaluations -/

/-- C1: for the input `{Revenue: "1,000", Cost_of_Revenue: "600"}` the
pipeline infers Gross_Profit = 400, Operating_Expenses = 280,
Operating_Income = 120, Net_Income = 90, and the five emitted links carry
layout values 600, 400, 280, 120, 90, each link's `absoluteValue` being
the signed field itself. -/
theorem revenue_cost_example_end_to_end :
    runInference (defaultFD (buildCleaned rawC1)) =
      ⟨.fin 1000, .fin 600, .fin 400, .fin 280, .fin 120, .fin 90⟩ ∧
    (buildSankey rawC1).links =
      [⟨0, 1, .fin 600, .fin 600⟩, ⟨0, 2, .fin 400, .fin 400⟩,
       ⟨2, 3, .fin 280, .fin 280⟩, ⟨2, 4, .fin 120, .fin 120⟩,
       ⟨4, 5, .fin 90, .fin 90⟩] := by
  have hfd : defaultFD (buildCleaned rawC1) =
      ⟨.fin 1000, .fin 600, .fin 0, .fin 0, .fin 0, .fin 0⟩ := by
    have h1 : buildCleaned rawC1 "Revenue" = some (.fin (parsedToRat (false, 1000, 0, 0))) := rfl
    have h2 : buildCleaned rawC1 "Cost_of_Revenue" =
        some (.fin (parsedToRat (false, 600, 0, 0))) := rfl
    have h3 : buildCleaned rawC1 "Gross_Profit" = none := rfl
    have h4 : buildCleaned rawC1 "Operating_Expenses" = none := rfl
    have h5 : buildCleaned rawC1 "Operating_Income" = none := rfl
    have h6 : buildCleaned rawC1 "Net_Income" = none := rfl
    norm_num [defaultFD, h1, h2, h3, h4, h5, h6, orZero, JSNum.truthy, parsedToRat]
  have hinf : runInference ⟨.fin 1000, .fin 600, .fin 0, .fin 0, .fin 0, .fin 0⟩ =
      ⟨.fin 1000, .fin 600, .fin 400, .fin 280, .fin 120, .fin 90⟩ := by
    norm_num [runInference, rule1, rule2, rule3, rule4, rule5,
      JSNum.gtZero, JSNum.eqZero, jsSub, jsMul]
  constructor
  · rw [hfd, hinf]
  · show (buildGraph (runInference (defaultFD (buildCleaned rawC1)))).links = _
    rw [hfd, hinf]
    norm_num [buildGraph, clampFlow, jsMax, jsAbs, minFlowValue]

/-- C3: a null/undefined statement makes the effect return early, so no
graph is produced and the component surfaces its non-chart fallback
state; this is the only such input — every non-null statement, however
sparse, yields the chart of `buildSankey`. -/
theorem null_input_only_failure :
    renderComponent none = RenderOutcome.failureState ∧
    ∀ raw : RawStatement, renderComponent (some raw) = RenderOutcome.chart (buildSankey raw) :=
  ⟨rfl, fun _ => rfl⟩

/-- C8: for the input `{Net_Income: -50}` inference sets Operating_Income
to `-50 × 1.25 = -62.5`, and the Operating Income → Net Income link
carries layout value 50 and `absoluteValue` -50. -/
theorem net_income_negative_example :
    (runInference (defaultFD (buildCleaned rawC8))).Operating_Income = .fin (-62.5) ∧
    (buildSankey rawC8).links.getD 4 ⟨0, 0, .nan, .nan⟩ = ⟨4, 5, .fin 50, .fin (-50)⟩ := by
  have hfd : defaultFD (buildCleaned rawC8) =
      ⟨.fin 0, .fin 0, .fin 0, .fin 0, .fin 0, .fin (-50)⟩ := by
    have h1 : buildCleaned rawC8 "Revenue" = none := rfl
    have h2 : buildCleaned rawC8 "Cost_of_Revenue" = none := rfl
    have h3 : buildCleaned rawC8 "Gross_Profit" = none := rfl
    have h4 : buildCleaned rawC8 "Operating_Expenses" = none := rfl
    have h5 : buildCleaned rawC8 "Operating_Income" = none := rfl
    have h6 : buildCleaned rawC8 "Net_Income" = some (.fin (-50)) := rfl
    norm_num [defaultFD, h1, h2, h3, h4, h5, h6, orZero, JSNum.truthy]
  have hinf : runInference ⟨.fin 0, .fin 0, .fin 0, .fin 0, .fin 0, .fin (-50)⟩ =
      ⟨.fin 0, .fin 0, .fin 0, .fin 0, .fin (-62.5), .fin (-50)⟩ := by
    norm_num [runInference, rule1, rule2, rule3, rule4, rule5,
      JSNum.gtZero, JSNum.eqZero, jsSub, jsMul]
  refine ⟨by rw [hfd, hinf], ?_⟩
  show ((buildGraph (runInference (defaultFD (buildCleaned rawC8)))).links.getD 4 _) = _
  rw [hfd, hinf]
  norm_num [buildGraph, clampFlow, jsMax, jsAbs, minFlowValue, List.getD]

/-- C9: the normalizer parses the string `"1,234.50"` to the number
1234.50, and a field whose value is the literal string `"Unknown"` is
excluded from the cleaned fields. -/
theorem normalizer_parse_and_unknown :
    buildCleaned [("Revenue", RawValue.str "1,234.50")] "Revenue" = some (.fin 1234.50) ∧
    buildCleaned [("Revenue", RawValue.str "Unknown")] "Revenue" = none := by
  refine ⟨?_, rfl⟩
  have h : buildCleaned [("Revenue", RawValue.str "1,234.50")] "Revenue" =
      some (.fin (parsedToRat (false, 1234, 50, 2))) := rfl
  rw [h]
  norm_num [parsedToRat]

/-- C4, counterexample: on the input `{Revenue: Infinity}` (a JS number),
rule 1 computes `Gross_Profit = ∞ − 0.65×∞ = NaN`, and the emitted
Gross-Profit link's layout value is `Math.max(1, Math.abs(NaN)) = NaN`,
which is not ≥ 1 — so not every input yields link values ≥ 1. -/
theorem link_floor_counterexample :
    ((buildSankey rawInfRevenue).links.all (fun l => jsGe l.value (.fin 1))) = false := by
  have hfd : defaultFD (buildCleaned rawInfRevenue) =
      ⟨.posInf, .fin 0, .fin 0, .fin 0, .fin 0, .fin 0⟩ := by
    have h1 : buildCleaned rawInfRevenue "Revenue" = some .posInf := rfl
    have h2 : buildCleaned rawInfRevenue "Cost_of_Revenue" = none := rfl
    have h3 : buildCleaned rawInfRevenue "Gross_Profit" = none := rfl
    have h4 : buildCleaned rawInfRevenue "Operating_Expenses" = none := rfl
    have h5 : buildCleaned rawInfRevenue "Operating_Income" = none := rfl
    have h6 : buildCleaned rawInfRevenue "Net_Income" = none := rfl
    norm_num [defaultFD, h1, h2, h3, h4, h5, h6, orZero, JSNum.truthy]
  have hinf : runInference ⟨.posInf, .fin 0, .fin 0, .fin 0, .fin 0, .fin 0⟩ =
      ⟨.posInf, .posInf, .nan, .fin 0, .fin 0, .fin 0⟩ := by
    norm_num [runInference, rule1, rule2, rule3, rule4, rule5,
      JSNum.gtZero, JSNum.eqZero, jsSub, jsMul]
  show ((buildGraph (runInference (defaultFD (buildCleaned rawInfRevenue)))).links.all _) = false
  rw [hfd, hinf]
  norm_num [buildGraph, clampFlow, jsMax, jsAbs, minFlowValue, jsGe]

/-- C6, counterexample: the input `{Revenue: NaN}` is a number, so the
normalizer stores it as-is, and the cleaned fields contain the non-finite
value `NaN`. -/
theorem cleaned_nonfinite_counterexample :
    buildCleaned rawNaNRevenue "Revenue" = some .nan ∧ JSNum.isFinite .nan = false :=
  ⟨rfl, rfl⟩

end SankeyChart

namespace SankeyChart

/-! ### Rule-interaction lemmas -/

lemma rule1_Revenue (fd : FinancialData) : (rule1 fd).Revenue = fd.Revenue := by
  unfold rule1
  split_ifs <;> rfl

lemma rule2_Revenue (fd : FinancialData) : (rule2 fd).Revenue = fd.Revenue := by
  unfold rule2
  split_ifs <;> rfl

lemma rule3_Revenue (fd : FinancialData) : (rule3 fd).Revenue = fd.Revenue := by
  unfold rule3
  split_ifs <;> rfl

lemma gtZero_not_eqZero (x : JSNum) (h : x.gtZero = true) : x.eqZero = false := by
  cases x with
  | fin q =>
      by_cases hq : 0 < q
      · simp [JSNum.eqZero, hq.ne']
      · simp [JSNum.gtZero, hq] at h
  | posInf => simp [JSNum.eqZero]
  | negInf => simp [JSNum.gtZero] at h
  | nan => simp [JSNum.gtZero] at h

/-- Rules 1–3 never modify Revenue, so a Revenue that was positive when
rule 1 wrote Cost_of_Revenue is still positive (hence nonzero) when rule
4 tests it: the two writes are mutually exclusive. -/
lemma rule1_rule4_exclusive (fd : FinancialData) :
    (rule1SetsCoR fd && rule4Fires (rule3 (rule2 (rule1 fd)))) = false := by
  by_cases h : rule1SetsCoR fd = true
  · have hrev : fd.Revenue.gtZero = true := by
      unfold rule1SetsCoR at h
      rw [Bool.and_eq_true] at h
      exact h.1
    have hR : (rule3 (rule2 (rule1 fd))).Revenue = fd.Revenue := by
      rw [rule3_Revenue, rule2_Revenue, rule1_Revenue]
    unfold rule4Fires
    rw [hR]
    simp [gtZero_not_eqZero _ hrev]
  · simp only [Bool.not_eq_true] at h
    simp [h]

/-- C5 (amended): no state reaching the inference chain makes rule 4
overwrite a `Cost_of_Revenue` written by rule 1 — rule 1 only writes it
when `Revenue > 0`, rules 1–3 never modify Revenue, and rule 4 requires
`Revenue === 0`. -/
theorem rule4_cannot_overwrite_rule1 (fd : FinancialData) :
    (rule1SetsCoR fd && rule4Fires (rule3 (rule2 (rule1 fd)))) = false :=
  rule1_rule4_exclusive fd

/-- C5, counterexample to the claimed existence: for every raw input
statement, it is false that rule 4 fires after rule 1 wrote
`Cost_of_Revenue` in the same run. -/
theorem no_input_makes_rule4_overwrite : noRule1Rule4Overwrite :=
  fun _ => rule1_rule4_exclusive _

/-- C2 (amended): for every raw statement whose only field is a positive
finite numeric Revenue, inference resolves Cost_of_Revenue to exactly
`0.65 × Revenue` and Gross_Profit to exactly `0.35 × Revenue`.  (The
restriction to finite Revenue is necessary: `Infinity` is also a
positive number, and there Gross_Profit comes out `NaN` — see the
counterexample below.) -/
theorem revenue_only_inference (q : ℚ) (hq : 0 < q) :
    (runInference (defaultFD (buildCleaned
        [("Revenue", RawValue.num (.fin q))]))).Cost_of_Revenue = .fin (0.65 * q) ∧
    (runInference (defaultFD (buildCleaned
        [("Revenue", RawValue.num (.fin q))]))).Gross_Profit = .fin (0.35 * q) := by
  have hfd : defaultFD (buildCleaned [("Revenue", RawValue.num (.fin q))]) =
      ⟨.fin q, .fin 0, .fin 0, .fin 0, .fin 0, .fin 0⟩ := by
    have h1 : buildCleaned [("Revenue", RawValue.num (.fin q))] "Revenue" = some (.fin q) := rfl
    have h2 : buildCleaned [("Revenue", RawValue.num (.fin q))] "Cost_of_Revenue" = none := rfl
    have h3 : buildCleaned [("Revenue", RawValue.num (.fin q))] "Gross_Profit" = none := rfl
    have h4 : buildCleaned [("Revenue", RawValue.num (.fin q))] "Operating_Expenses" = none := rfl
    have h5 : buildCleaned [("Revenue", RawValue.num (.fin q))] "Operating_Income" = none := rfl
    have h6 : buildCleaned [("Revenue", RawValue.num (.fin q))] "Net_Income" = none := rfl
    norm_num [defaultFD, h1, h2, h3, h4, h5, h6, orZero, JSNum.truthy, hq.ne']
  have hg : 0 < q - q * 0.65 := by nlinarith
  have hoi : 0 < (q - q * 0.65) - (q - q * 0.65) * 0.7 := by nlinarith
  have e1 : rule1 ⟨.fin q, .fin 0, .fin 0, .fin 0, .fin 0, .fin 0⟩ =
      ⟨.fin q, .fin (q * 0.65), .fin (q - q * 0.65), .fin 0, .fin 0, .fin 0⟩ := by
    unfold rule1
    simp [JSNum.gtZero, JSNum.eqZero, hq, jsMul, jsSub]
  have e2 : rule2 ⟨.fin q, .fin (q * 0.65), .fin (q - q * 0.65), .fin 0, .fin 0, .fin 0⟩ =
      ⟨.fin q, .fin (q * 0.65), .fin (q - q * 0.65), .fin ((q - q * 0.65) * 0.7),
        .fin ((q - q * 0.65) - (q - q * 0.65) * 0.7), .fin 0⟩ := by
    unfold rule2
    simp [JSNum.gtZero, JSNum.eqZero, hg, jsMul, jsSub]
  have e3 : rule3 ⟨.fin q, .fin (q * 0.65), .fin (q - q * 0.65), .fin ((q - q * 0.65) * 0.7),
        .fin ((q - q * 0.65) - (q - q * 0.65) * 0.7), .fin 0⟩ =
      ⟨.fin q, .fin (q * 0.65), .fin (q - q * 0.65), .fin ((q - q * 0.65) * 0.7),
        .fin ((q - q * 0.65) - (q - q * 0.65) * 0.7),
        .fin (((q - q * 0.65) - (q - q * 0.65) * 0.7) * 0.75)⟩ := by
    unfold rule3
    simp [JSNum.eqZero, hoi.ne', jsMul]
  have e4 : rule4 ⟨.fin q, .fin (q * 0.65), .fin (q - q * 0.65), .fin ((q - q * 0.65) * 0.7),
        .fin ((q - q * 0.65) - (q - q * 0.65) * 0.7),
        .fin (((q - q * 0.65) - (q - q * 0.65) * 0.7) * 0.75)⟩ =
      ⟨.fin q, .fin (q * 0.65), .fin (q - q * 0.65), .fin ((q - q * 0.65) * 0.7),
        .fin ((q - q * 0.65) - (q - q * 0.65) * 0.7),
        .fin (((q - q * 0.65) - (q - q * 0.65) * 0.7) * 0.75)⟩ := by
    unfold rule4
    simp [JSNum.eqZero, hq.ne']
  have e5 : rule5 ⟨.fin q, .fin (q * 0.65), .fin (q - q * 0.65), .fin ((q - q * 0.65) * 0.7),
        .fin ((q - q * 0.65) - (q - q * 0.65) * 0.7),
        .fin (((q - q * 0.65) - (q - q * 0.65) * 0.7) * 0.75)⟩ =
      ⟨.fin q, .fin (q * 0.65), .fin (q - q * 0.65), .fin ((q - q * 0.65) * 0.7),
        .fin ((q - q * 0.65) - (q - q * 0.65) * 0.7),
        .fin (((q - q * 0.65) - (q - q * 0.65) * 0.7) * 0.75)⟩ := by
    unfold rule5
    simp [JSNum.eqZero, hoi.ne']
  rw [hfd]
  unfold runInference
  rw [e1, e2, e3, e4, e5]
  constructor
  · show JSNum.fin (q * 0.65) = JSNum.fin (0.65 * q)
    rw [mul_comm]
  · show JSNum.fin (q - q * 0.65) = JSNum.fin (0.35 * q)
    have harith : q - q * 0.65 = 0.35 * q := by ring
    rw [harith]

/-- C2, counterexample: `{Revenue: Infinity}` is a raw statement whose
only field is a positive numeric Revenue (`Infinity > 0` holds in JS),
yet inference yields `Gross_Profit = ∞ − 0.65×∞ = NaN`, while
`0.35 × Revenue` is `+∞` and `NaN ≠ +∞` — so the claimed resolution does
not hold for every positive numeric Revenue. -/
theorem revenue_only_inference_counterexample :
    JSNum.gtZero .posInf = true ∧
    (runInference (defaultFD (buildCleaned
      [("Revenue", RawValue.num .posInf)]))).Gross_Profit = .nan ∧
    jsMul (.fin 0.35) .posInf = .posInf ∧ JSNum.nan ≠ JSNum.posInf := by
  refine ⟨rfl, ?_, by norm_num [jsMul], by simp⟩
  have hfd : defaultFD (buildCleaned [("Revenue", RawValue.num .posInf)]) =
      ⟨.posInf, .fin 0, .fin 0, .fin 0, .fin 0, .fin 0⟩ := by
    have h1 : buildCleaned [("Revenue", RawValue.num .posInf)] "Revenue" = some .posInf := rfl
    have h2 : buildCleaned [("Revenue", RawValue.num .posInf)] "Cost_of_Revenue" = none := rfl
    have h3 : buildCleaned [("Revenue", RawValue.num .posInf)] "Gross_Profit" = none := rfl
    have h4 : buildCleaned [("Revenue", RawValue.num .posInf)] "Operating_Expenses" = none := rfl
    have h5 : buildCleaned [("Revenue", RawValue.num .posInf)] "Operating_Income" = none := rfl
    have h6 : buildCleaned [("Revenue", RawValue.num .posInf)] "Net_Income" = none := rfl
    norm_num [defaultFD, h1, h2, h3, h4, h5, h6, orZero, JSNum.truthy]
  have hinf : runInference ⟨.posInf, .fin 0, .fin 0, .fin 0, .fin 0, .fin 0⟩ =
      ⟨.posInf, .posInf, .nan, .fin 0, .fin 0, .fin 0⟩ := by
    norm_num [runInference, rule1, rule2, rule3, rule4, rule5,
      JSNum.gtZero, JSNum.eqZero, jsSub, jsMul]
  rw [hfd, hinf]

/-! ### Normalizer lemmas -/

set_option maxRecDepth 8192 in
/-- Validation of the `overflowThreshold` numeral against its defining
expression `2^1024 − 2^970`. -/
lemma overflowThreshold_eq : overflowThreshold = 2 ^ 1024 - 2 ^ 970 := by decide

/-- The string branch never stores `NaN` — the `isNaN` guard excludes
it — but it can store `±Infinity` on overflow. -/
lemma cleanString_not_nan (s : String) (v : JSNum) (h : cleanString s = some v) :
    v ≠ .nan := by
  unfold cleanString at h
  split_ifs at h
  rcases hp : jsParseFloat (stripNonNumeric s) with _ | p <;> rw [hp] at h
  · simp at h
  · simp only [Option.some.injEq] at h
    rw [← h]
    unfold parsedToJSNum
    split_ifs <;> simp

set_option maxRecDepth 4096 in
/-- Validation of the overflow model: the numeric string `"1"` followed
by 309 zeros parses to `Infinity` and the normalizer stores it, exactly
as `parseFloat` does in JS. -/
lemma cleanString_overflow_example : cleanString overflowString = some .posInf := by
  decide

set_option maxRecDepth 4096 in
/-- The overflow case the floor amendment must exclude: the pure-string
input `{Revenue: "1" + "0"×309}` has no numeric field at all, yet its
cleaned Revenue is `Infinity`; it fails `allFinite`, and the emitted
Gross-Profit link value is `NaN`, not ≥ 1. -/
lemma overflow_string_breaks_floor :
    allFinite rawOverflowRevenue = false ∧
    ((buildSankey rawOverflowRevenue).links.all (fun l => jsGe l.value (.fin 1))) = false := by
  constructor
  · decide
  · have hfd : defaultFD (buildCleaned rawOverflowRevenue) =
        ⟨.posInf, .fin 0, .fin 0, .fin 0, .fin 0, .fin 0⟩ := by
      have h1 : buildCleaned rawOverflowRevenue "Revenue" = some .posInf := rfl
      have h2 : buildCleaned rawOverflowRevenue "Cost_of_Revenue" = none := rfl
      have h3 : buildCleaned rawOverflowRevenue "Gross_Profit" = none := rfl
      have h4 : buildCleaned rawOverflowRevenue "Operating_Expenses" = none := rfl
      have h5 : buildCleaned rawOverflowRevenue "Operating_Income" = none := rfl
      have h6 : buildCleaned rawOverflowRevenue "Net_Income" = none := rfl
      norm_num [defaultFD, h1, h2, h3, h4, h5, h6, orZero, JSNum.truthy]
    have hinf : runInference ⟨.posInf, .fin 0, .fin 0, .fin 0, .fin 0, .fin 0⟩ =
        ⟨.posInf, .posInf, .nan, .fin 0, .fin 0, .fin 0⟩ := by
      norm_num [runInference, rule1, rule2, rule3, rule4, rule5,
        JSNum.gtZero, JSNum.eqZero, jsSub, jsMul]
    show ((buildGraph (runInference (defaultFD (buildCleaned rawOverflowRevenue)))).links.all _) = false
    rw [hfd, hinf]
    norm_num [buildGraph, clampFlow, jsMax, jsAbs, minFlowValue, jsGe]

lemma cleanStep_ne (m : CleanedFields) (kv : String × RawValue) (k : String)
    (h : kv.1 ≠ k) : cleanStep m kv k = m k := by
  obtain ⟨key, val⟩ := kv
  simp only at h
  unfold cleanStep
  cases val with
  | num x => simp [Ne.symm h]
  | str s => rcases hcs : cleanString s with _ | v <;> simp [hcs, Ne.symm h]
  | other => simp

lemma cleanStep_congr (m1 m2 : CleanedFields) (kv : String × RawValue) (k : String)
    (h : m1 k = m2 k) : cleanStep m1 kv k = cleanStep m2 kv k := by
  obtain ⟨key, val⟩ := kv
  unfold cleanStep
  cases val with
  | num x =>
      by_cases hk : k = key
      · subst hk
        simp [h]
      · simp [hk, h]
  | str s =>
      rcases hcs : cleanString s with _ | v
      · simp [hcs, h]
      · by_cases hk : k = key
        · subst hk
          simp [hcs, h]
        · simp [hcs, hk, h]
  | other => simp [h]

lemma foldl_cleanStep_congr (l : RawStatement) (m1 m2 : CleanedFields) (k : String)
    (h : m1 k = m2 k) :
    (l.foldl cleanStep m1) k = (l.foldl cleanStep m2) k := by
  induction l generalizing m1 m2 with
  | nil => exact h
  | cons kv t ih => exact ih _ _ (cleanStep_congr _ _ _ _ h)

lemma foldl_cleanStep_filter (l : RawStatement) (m : CleanedFields) (k : String) :
    (l.foldl cleanStep m) k = ((l.filter (fun kv => kv.1 = k)).foldl cleanStep m) k := by
  induction l generalizing m with
  | nil => rfl
  | cons kv t ih =>
      by_cases hk : kv.1 = k
      · rw [List.foldl_cons, ih (cleanStep m kv),
          List.filter_cons_of_pos (by simp [hk]), List.foldl_cons]
      · rw [List.foldl_cons, ih (cleanStep m kv), List.filter_cons_of_neg (by simp [hk])]
        exact foldl_cleanStep_congr _ _ _ _ (cleanStep_ne _ _ _ hk)

lemma buildCleaned_eq_of_filter_eq (raw1 raw2 : RawStatement) (k : String)
    (h : raw1.filter (fun kv => kv.1 = k) = raw2.filter (fun kv => kv.1 = k)) :
    buildCleaned raw1 k = buildCleaned raw2 k := by
  unfold buildCleaned
  rw [foldl_cleanStep_filter raw1 _ k, foldl_cleanStep_filter raw2 _ k, h]

lemma cleanStep_sources (m : CleanedFields) (kv : String × RawValue) (k : String)
    (v : JSNum) (h : cleanStep m kv k = some v) :
    m k = some v ∨ (k, RawValue.num v) = kv ∨
    ∃ s, kv = (k, RawValue.str s) ∧ cleanString s = some v := by
  obtain ⟨key, val⟩ := kv
  cases val with
  | num x =>
      unfold cleanStep at h
      dsimp only at h
      by_cases he : key = "error"
      · rw [if_pos he] at h
        exact Or.inl h
      · rw [if_neg he] at h
        by_cases hk : k = key
        · rw [if_pos hk] at h
          injection h with h
          exact Or.inr (Or.inl (by rw [hk, h]))
        · rw [if_neg hk] at h
          exact Or.inl h
  | str s =>
      unfold cleanStep at h
      dsimp only at h
      by_cases he : key = "error"
      · rw [if_pos he] at h
        exact Or.inl h
      · rw [if_neg he] at h
        rcases hcs : cleanString s with _ | w <;> rw [hcs] at h
        · exact Or.inl h
        · dsimp only at h
          by_cases hk : k = key
          · rw [if_pos hk] at h
            injection h with h
            rw [h] at hcs
            exact Or.inr (Or.inr ⟨s, by rw [hk], hcs⟩)
          · rw [if_neg hk] at h
            exact Or.inl h
  | other =>
      unfold cleanStep at h
      dsimp only at h
      by_cases he : key = "error"
      · rw [if_pos he] at h
        exact Or.inl h
      · rw [if_neg he] at h
        exact Or.inl h

lemma foldl_sources (l : RawStatement) (m : CleanedFields) (k : String) (v : JSNum)
    (h : (l.foldl cleanStep m) k = some v) :
    m k = some v ∨ (k, RawValue.num v) ∈ l ∨
    ∃ s, (k, RawValue.str s) ∈ l ∧ cleanString s = some v := by
  induction l generalizing m with
  | nil => exact Or.inl h
  | cons kv t ih =>
      rcases ih (cleanStep m kv) h with h1 | h2 | ⟨s, hs, hcs⟩
      · rcases cleanStep_sources _ _ _ _ h1 with a | b | ⟨s, hb, hbs⟩
        · exact Or.inl a
        · exact Or.inr (Or.inl (by rw [b]; exact List.mem_cons_self _ _))
        · exact Or.inr (Or.inr ⟨s, by rw [hb]; exact List.mem_cons_self _ _, hbs⟩)
      · exact Or.inr (Or.inl (List.mem_cons_of_mem _ h2))
      · exact Or.inr (Or.inr ⟨s, List.mem_cons_of_mem _ hs, hcs⟩)

/-- Finiteness of one cleaning step, given that the entry cannot
introduce a non-finite value (finite raw number, non-overflowing string,
or non-numeric value). -/
lemma cleanStep_finite (m : CleanedFields) (kv : String × RawValue) (k : String)
    (hkv : rawValueFinite kv.2 = true)
    (hm : ∀ w, m k = some w → w.isFinite = true) :
    ∀ w, cleanStep m kv k = some w → w.isFinite = true := by
  intro w h
  rcases cleanStep_sources m kv k w h with h1 | h2 | ⟨s, hs, hcs⟩
  · exact hm w h1
  · rw [← h2] at hkv
    exact hkv
  · rw [hs] at hkv
    unfold rawValueFinite at hkv
    dsimp only at hkv
    rw [hcs] at hkv
    exact hkv

lemma foldl_cleanStep_finite (l : RawStatement) (m : CleanedFields)
    (hl : l.all (fun kv => rawValueFinite kv.2) = true)
    (hm : ∀ k w, m k = some w → w.isFinite = true) :
    ∀ k w, (l.foldl cleanStep m) k = some w → w.isFinite = true := by
  induction l generalizing m with
  | nil => exact hm
  | cons kv t ih =>
      simp only [List.all_cons, Bool.and_eq_true] at hl
      exact ih (cleanStep m kv) hl.2 (fun k => cleanStep_finite m kv k hl.1 (hm k))

/-- C6 (amended): every value present in the cleaned fields is either
finite, or a non-finite raw number (`NaN`/`±Infinity`) that the number
branch stored as-is, or `±Infinity` stored by the string branch when
`parseFloat` overflows a huge numeric string (`isNaN(Infinity)` is
false, so the guard accepts it) — the string branch never stores `NaN`,
but it does not only admit finite values. -/
theorem cleaned_values_finite_or_raw (raw : RawStatement) (k : String) (v : JSNum)
    (h : buildCleaned raw k = some v) :
    v.isFinite = true ∨ (k, RawValue.num v) ∈ raw ∨
    ((v = .posInf ∨ v = .negInf) ∧
      ∃ s, (k, RawValue.str s) ∈ raw ∧ cleanString s = some v) := by
  rcases foldl_sources raw _ k v h with h1 | h2 | ⟨s, hs, hcs⟩
  · exact absurd h1 (by simp)
  · exact Or.inr (Or.inl h2)
  · cases v with
    | fin q => exact Or.inl rfl
    | posInf => exact Or.inr (Or.inr ⟨Or.inl rfl, s, hs, hcs⟩)
    | negInf => exact Or.inr (Or.inr ⟨Or.inr rfl, s, hs, hcs⟩)
    | nan => exact absurd rfl (cleanString_not_nan s _ hcs)

/-- C6 witness: the amended statement applied to the `{Revenue: NaN}`
input, where the stored `NaN` comes from the raw number entry. -/
theorem cleaned_values_finite_or_raw_witness :
    buildCleaned rawNaNRevenue "Revenue" = some .nan ∧
    (JSNum.isFinite .nan = true ∨ ("Revenue", RawValue.num .nan) ∈ rawNaNRevenue ∨
      ((JSNum.nan = .posInf ∨ JSNum.nan = .negInf) ∧
        ∃ s, ("Revenue", RawValue.str s) ∈ rawNaNRevenue ∧ cleanString s = some .nan)) :=
  ⟨rfl, cleaned_values_finite_or_raw rawNaNRevenue "Revenue" .nan rfl⟩

/-- C7: two raw statements that carry the same entries for the six
financial field names — and may differ arbitrarily in every other key,
including extra metadata keys and the `error` key — produce identical
graphs (same nodes and links, values and absoluteValues included). -/
theorem extra_keys_no_influence (raw1 raw2 : RawStatement)
    (h : ∀ f ∈ sixFieldNames,
      raw1.filter (fun kv => kv.1 = f) = raw2.filter (fun kv => kv.1 = f)) :
    buildSankey raw1 = buildSankey raw2 := by
  have hd : defaultFD (buildCleaned raw1) = defaultFD (buildCleaned raw2) := by
    unfold defaultFD
    rw [buildCleaned_eq_of_filter_eq raw1 raw2 "Revenue" (h _ (by simp [sixFieldNames])),
      buildCleaned_eq_of_filter_eq raw1 raw2 "Cost_of_Revenue" (h _ (by simp [sixFieldNames])),
      buildCleaned_eq_of_filter_eq raw1 raw2 "Gross_Profit" (h _ (by simp [sixFieldNames])),
      buildCleaned_eq_of_filter_eq raw1 raw2 "Operating_Expenses" (h _ (by simp [sixFieldNames])),
      buildCleaned_eq_of_filter_eq raw1 raw2 "Operating_Income" (h _ (by simp [sixFieldNames])),
      buildCleaned_eq_of_filter_eq raw1 raw2 "Net_Income" (h _ (by simp [sixFieldNames]))]
  unfold buildSankey
  rw [hd]

/-- C7 witness: adding a metadata key `Ticker` and an `error` key leaves
the graph unchanged. -/
theorem extra_keys_no_influence_witness :
    (∀ f ∈ sixFieldNames,
      ([("Revenue", RawValue.str "100")].filter (fun kv => kv.1 = f)) =
      ([("Revenue", RawValue.str "100"), ("error", RawValue.other),
        ("Ticker", RawValue.str "AAPL")].filter (fun kv => kv.1 = f))) ∧
    buildSankey [("Revenue", RawValue.str "100")] =
      buildSankey [("Revenue", RawValue.str "100"), ("error", RawValue.other),
        ("Ticker", RawValue.str "AAPL")] :=
  ⟨by decide, extra_keys_no_influence _ _ (by decide)⟩

/-! ### A cleaned 0 and an absent field are interchangeable -/

lemma cleanStep_zeroAbsent (m1 m2 : CleanedFields) (kv : String × RawValue)
    (h : zeroAbsentAgree m1 m2) : zeroAbsentAgree (cleanStep m1 kv) (cleanStep m2 kv) := by
  intro k
  obtain ⟨key, val⟩ := kv
  unfold cleanStep
  by_cases he : key = "error"
  · dsimp only
    rw [if_pos he, if_pos he]
    exact h k
  · cases val with
    | num x =>
        dsimp only
        rw [if_neg he, if_neg he]
        by_cases hk : k = key
        · rw [if_pos hk, if_pos hk]
          exact Or.inl rfl
        · rw [if_neg hk, if_neg hk]
          exact h k
    | str s =>
        dsimp only
        rw [if_neg he, if_neg he]
        rcases hcs : cleanString s with _ | v
        · exact h k
        · dsimp only
          by_cases hk : k = key
          · rw [if_pos hk, if_pos hk]
            exact Or.inl rfl
          · rw [if_neg hk, if_neg hk]
            exact h k
    | other =>
        dsimp only
        rw [if_neg he, if_neg he]
        exact h k

lemma foldl_zeroAbsent (l : RawStatement) (m1 m2 : CleanedFields)
    (h : zeroAbsentAgree m1 m2) :
    zeroAbsentAgree (l.foldl cleanStep m1) (l.foldl cleanStep m2) := by
  induction l generalizing m1 m2 with
  | nil => exact h
  | cons kv t ih => exact ih _ _ (cleanStep_zeroAbsent _ _ _ h)

lemma orZero_zeroAbsent (o1 o2 : Option JSNum)
    (h : o1 = o2 ∨ (o1 = some (.fin 0) ∧ o2 = none)) : orZero o1 = orZero o2 := by
  rcases h with h | ⟨h1, h2⟩
  · rw [h]
  · rw [h1, h2]
    norm_num [orZero, JSNum.truthy]

lemma defaultFD_zeroAbsent (m1 m2 : CleanedFields) (h : zeroAbsentAgree m1 m2) :
    defaultFD m1 = defaultFD m2 := by
  unfold defaultFD
  rw [orZero_zeroAbsent _ _ (h "Revenue"), orZero_zeroAbsent _ _ (h "Cost_of_Revenue"),
    orZero_zeroAbsent _ _ (h "Gross_Profit"), orZero_zeroAbsent _ _ (h "Operating_Expenses"),
    orZero_zeroAbsent _ _ (h "Operating_Income"), orZero_zeroAbsent _ _ (h "Net_Income")]

/-- C10: providing one of the six financial fields with the explicit
numeric value 0 yields exactly the same graph as omitting the field
entirely — an explicit 0 and an absent field are indistinguishable
through defaulting, inference and graph construction. -/
theorem zero_field_equals_absent (raw : RawStatement) (f : String)
    (_hf : f ∈ sixFieldNames) :
    buildSankey ((f, RawValue.num (.fin 0)) :: raw) = buildSankey raw := by
  have h0 : zeroAbsentAgree (cleanStep (fun _ => none) (f, RawValue.num (.fin 0)))
      (fun _ => none) := by
    intro k
    unfold cleanStep
    dsimp only
    by_cases he : f = "error"
    · rw [if_pos he]
      exact Or.inl rfl
    · rw [if_neg he]
      by_cases hk : k = f
      · rw [if_pos hk]
        exact Or.inr ⟨rfl, rfl⟩
      · rw [if_neg hk]
        exact Or.inl rfl
  have hagree := foldl_zeroAbsent raw _ _ h0
  have hd := defaultFD_zeroAbsent _ _ hagree
  unfold buildSankey buildCleaned
  rw [List.foldl_cons, hd]

/-- C10 witness: an explicit `Revenue: 0` produces the same graph as the
empty statement. -/
theorem zero_field_equals_absent_witness :
    ("Revenue" ∈ sixFieldNames) ∧
    buildSankey [("Revenue", RawValue.num (.fin 0))] = buildSankey [] :=
  ⟨by decide, zero_field_equals_absent [] "Revenue" (by decide)⟩

/-! ### Finiteness is preserved down the pipeline -/

lemma jsSub_finite (a b : JSNum) (ha : a.isFinite = true) (hb : b.isFinite = true) :
    (jsSub a b).isFinite = true := by
  cases a <;> cases b <;> simp_all [JSNum.isFinite, jsSub]

lemma jsMul_finite (a b : JSNum) (ha : a.isFinite = true) (hb : b.isFinite = true) :
    (jsMul a b).isFinite = true := by
  cases a <;> cases b <;> simp_all [JSNum.isFinite, jsMul]

lemma orZero_finite (o : Option JSNum) (h : ∀ v, o = some v → v.isFinite = true) :
    (orZero o).isFinite = true := by
  rcases o with _ | v
  · rfl
  · simp only [orZero]
    split_ifs
    · exact h v rfl
    · rfl

lemma defaultFD_finite (cd : CleanedFields)
    (h : ∀ k v, cd k = some v → v.isFinite = true) :
    FDallFinite (defaultFD cd) := by
  unfold FDallFinite defaultFD
  exact ⟨orZero_finite _ (h _), orZero_finite _ (h _), orZero_finite _ (h _),
    orZero_finite _ (h _), orZero_finite _ (h _), orZero_finite _ (h _)⟩

lemma rule1_finite (fd : FinancialData) (h : FDallFinite fd) :
    FDallFinite (rule1 fd) := by
  unfold FDallFinite at h
  obtain ⟨h1, h2, h3, h4, h5, h6⟩ := h
  unfold rule1
  split_ifs <;>
    simp only [FDallFinite] <;>
    refine ⟨?_, ?_, ?_, ?_, ?_, ?_⟩ <;>
    first
      | assumption
      | rfl
      | (apply jsSub_finite <;> first | assumption | rfl |
          (apply jsMul_finite <;> first | assumption | rfl))
      | (apply jsMul_finite <;> first | assumption | rfl)

lemma rule2_finite (fd : FinancialData) (h : FDallFinite fd) :
    FDallFinite (rule2 fd) := by
  unfold FDallFinite at h
  obtain ⟨h1, h2, h3, h4, h5, h6⟩ := h
  unfold rule2
  split_ifs <;>
    simp only [FDallFinite] <;>
    refine ⟨?_, ?_, ?_, ?_, ?_, ?_⟩ <;>
    first
      | assumption
      | rfl
      | (apply jsSub_finite <;> first | assumption | rfl |
          (apply jsMul_finite <;> first | assumption | rfl))
      | (apply jsMul_finite <;> first | assumption | rfl)

lemma rule3_finite (fd : FinancialData) (h : FDallFinite fd) :
    FDallFinite (rule3 fd) := by
  unfold FDallFinite at h
  obtain ⟨h1, h2, h3, h4, h5, h6⟩ := h
  unfold rule3
  split_ifs <;>
    simp only [FDallFinite] <;>
    refine ⟨?_, ?_, ?_, ?_, ?_, ?_⟩ <;>
    first
      | assumption
      | rfl
      | (apply jsMul_finite <;> first | assumption | rfl)

lemma rule4_finite (fd : FinancialData) (h : FDallFinite fd) :
    FDallFinite (rule4 fd) := by
  unfold FDallFinite at h
  obtain ⟨h1, h2, h3, h4, h5, h6⟩ := h
  unfold rule4
  split_ifs <;>
    simp only [FDallFinite] <;>
    refine ⟨?_, ?_, ?_, ?_, ?_, ?_⟩ <;>
    first
      | assumption
      | rfl
      | (apply jsSub_finite <;> first | assumption | rfl |
          (apply jsMul_finite <;> first | assumption | rfl))
      | (apply jsMul_finite <;> first | assumption | rfl)

lemma rule5_finite (fd : FinancialData) (h : FDallFinite fd) :
    FDallFinite (rule5 fd) := by
  unfold FDallFinite at h
  obtain ⟨h1, h2, h3, h4, h5, h6⟩ := h
  unfold rule5
  split_ifs <;>
    simp only [FDallFinite] <;>
    refine ⟨?_, ?_, ?_, ?_, ?_, ?_⟩ <;>
    first
      | assumption
      | rfl
      | (apply jsMul_finite <;> first | assumption | rfl)

lemma runInference_finite (fd : FinancialData) (h : FDallFinite fd) :
    FDallFinite (runInference fd) :=
  rule5_finite _ (rule4_finite _ (rule3_finite _ (rule2_finite _ (rule1_finite _ h))))

lemma clampFlow_ge_one (x : JSNum) (h : x.isFinite = true) :
    jsGe (clampFlow x) (.fin 1) = true := by
  cases x with
  | fin q =>
      simp only [clampFlow, minFlowValue, jsAbs, jsMax]
      split_ifs <;> simp only [jsGe] <;> split_ifs <;> first | rfl | linarith
  | posInf => simp [JSNum.isFinite] at h
  | negInf => simp [JSNum.isFinite] at h
  | nan => simp [JSNum.isFinite] at h

/-- C4 (amended): for every raw statement whose numeric values are all
finite and whose string fields never parse to an overflowing (infinite)
magnitude, each of the five emitted links has a layout value ≥ the floor
1.  (Both restrictions are necessary: `{Revenue: Infinity}` — see the
counterexample — and equally a pure-string input such as
`{Revenue: "1" + "0"×309}`, whose parse overflows to `Infinity`, give a
`NaN` link value.) -/
theorem links_floor_for_finite_inputs (raw : RawStatement) (h : allFinite raw = true) :
    ((buildSankey raw).links.all (fun l => jsGe l.value (.fin 1))) = true := by
  have hcd : ∀ k v, buildCleaned raw k = some v → v.isFinite = true := by
    have hl : raw.all (fun kv => rawValueFinite kv.2) = true := by
      simpa only [allFinite] using h
    exact foldl_cleanStep_finite raw (fun _ => none) hl
      (fun k w hw => absurd hw (by simp))
  have hfin := runInference_finite _ (defaultFD_finite _ hcd)
  obtain ⟨f1, f2, f3, f4, f5, f6⟩ := hfin
  rw [List.all_eq_true]
  intro l hl
  simp only [buildSankey, buildGraph, List.mem_cons, List.not_mem_nil, or_false] at hl
  rcases hl with rfl | rfl | rfl | rfl | rfl <;>
    first
      | exact clampFlow_ge_one _ f2
      | exact clampFlow_ge_one _ f3
      | exact clampFlow_ge_one _ f4
      | exact clampFlow_ge_one _ f5
      | exact clampFlow_ge_one _ f6

/-- C4 witness: the amended statement applied to the empty statement,
whose links all carry the floor value 1. -/
theorem links_floor_for_finite_inputs_witness :
    allFinite [] = true ∧
    ((buildSankey ([] : RawStatement)).links.all (fun l => jsGe l.value (.fin 1))) = true :=
  ⟨rfl, links_floor_for_finite_inputs [] rfl⟩

/-- C2 witness: the inference theorem applied at Revenue = 1000. -/
theorem revenue_only_inference_witness :
    (0 : ℚ) < 1000 ∧
    ((runInference (defaultFD (buildCleaned
        [("Revenue", RawValue.num (.fin 1000))]))).Cost_of_Revenue = .fin (0.65 * 1000) ∧
     (runInference (defaultFD (buildCleaned
        [("Revenue", RawValue.num (.fin 1000))]))).Gross_Profit = .fin (0.35 * 1000)) :=
  ⟨by norm_num, revenue_only_inference 1000 (by norm_num)⟩

end SankeyChart
